import Mathlib

/-!
Verification of concurrency/forms.py: the version-token codec
(VersionField / DateVersionField), the display wrapper (SignedValue,
VersionWidget) and the conflict-surfacing form (ConcurrentForm).

Python values are embedded as follows: a submitted form value is
`Option String` (`none` is Python None); datetimes are abstract instants
(`Int`); the Django Signer is parameterised by its MAC function
`sigFn : String → String` (Django computes a base64 HMAC, so its output
never contains the separator character); exceptions become `Except`.
-/

/-- The SuspiciousOperation raised by VersionField.to_python. -/
inductive Tamper where
  | tampered
deriving DecidableEq

/-- django.core.signing.Signer.sign: the signed token is the stringified
value, the separator character, and the MAC of the value. -/
def sign (sigFn : String → String) (value : String) : String :=
  value ++ ":" ++ sigFn value

/-- Split a character list at the LAST occurrence of `sep`
(Python str.rsplit(sep, 1)); `none` when `sep` does not occur. -/
def rsplitLast (sep : Char) : List Char → Option (List Char × List Char)
  | [] => none
  | c :: cs =>
    match rsplitLast sep cs with
    | some (a, b) => some (c :: a, b)
    | none => if c = sep then some ([], cs) else none

/-- django.core.signing.Signer.unsign: BadSignature (here `none`) when the
separator is absent or the MAC of the left part does not match the right
part; otherwise the original value. -/
def unsign (sigFn : String → String) (s : String) : Option String :=
  match rsplitLast ':' s.data with
  | none => none
  | some (v, sigPart) =>
    if String.mk sigPart = sigFn (String.mk v) then some (String.mk v) else none

/-- Python int(c) for a decimal digit character. -/
def digitVal (c : Char) : Nat := c.toNat - 48

/-- Parse an unsigned decimal digit string; `none` (ValueError) when empty
or containing a non-digit. -/
def digitsToNat (l : List Char) : Option Nat :=
  if l ≠ [] ∧ l.all Char.isDigit = true then
    some (l.foldl (fun a c => a * 10 + digitVal c) 0)
  else none

/-- Python int(s) after whitespace stripping: an optional single sign
followed by a non-empty run of digits. -/
def pyIntCore : List Char → Option Int
  | [] => none
  | c :: rest =>
    if c = '-' then (digitsToNat rest).map (fun n => -(n : Int))
    else if c = '+' then (digitsToNat rest).map (fun n => (n : Int))
    else (digitsToNat (c :: rest)).map (fun n => (n : Int))

def isPySpace (c : Char) : Bool := c = ' ' || c = '\t' || c = '\n' || c = '\r'

/-- Python str.strip(): drop leading and trailing whitespace. -/
def pyStrip (l : List Char) : List Char :=
  ((l.dropWhile isPySpace).reverse.dropWhile isPySpace).reverse

/-- Python int(s): ValueError becomes `none`. -/
def pyInt (s : String) : Option Int := pyIntCore (pyStrip s.data)

def digitChar : Nat → Char
  | 0 => '0' | 1 => '1' | 2 => '2' | 3 => '3' | 4 => '4'
  | 5 => '5' | 6 => '6' | 7 => '7' | 8 => '8' | 9 => '9'
  | _ => '*'

/-- Little-endian decimal digits of a natural number. -/
def natDigitsRev (n : Nat) : List Char :=
  if h : n < 10 then [digitChar n]
  else digitChar (n % 10) :: natDigitsRev (n / 10)
decreasing_by exact Nat.div_lt_self (by omega) (by omega)

/-- Python str(n) for a non-negative integer. -/
def natStr (n : Nat) : String := String.mk (natDigitsRev n).reverse

/-- Python str(v) for an integer. -/
def intStr (v : Int) : String :=
  if v < 0 then "-" ++ natStr v.natAbs else natStr v.natAbs

/-- forms.py SignedValue: wraps the signed token (or the raw submitted
data in bound_data, which may be None). -/
structure SignedValue where
  value : Option String
deriving DecidableEq

/-- Python truthiness of the wrapped value: None and the empty string are
falsy. -/
def pyTruthy : Option String → Bool
  | none => false
  | some s => !(s == "")

/-- Python str() of the wrapped value. -/
def pyStrOpt : Option String → String
  | none => "None"
  | some s => s

/-- SignedValue.__repr__: str(self.value) when truthy, else the empty
string. -/
def SignedValue.pyRepr (sv : SignedValue) : String :=
  if pyTruthy sv.value then pyStrOpt sv.value else ""

/-- A Python value reaching VersionField.prepare_value: an
already-signed SignedValue, a raw integer revision marker, or None. -/
inductive FieldValue where
  | signed (sv : SignedValue)
  | rawInt (v : Int)
  | pyNone
deriving DecidableEq

/-- VersionField.prepare_value: SignedValue instances pass through
unchanged; anything else is stringified, signed and wrapped. -/
def VersionField.prepare_value (sigFn : String → String) (value : FieldValue) : SignedValue :=
  match value with
  | .signed sv => sv
  | .rawInt v => ⟨some (sign sigFn (intStr v))⟩
  | .pyNone => ⟨some (sign sigFn "None")⟩

/-- VersionField.bound_data: wraps the raw submitted data. -/
def VersionField.bound_data (data : Option String) (_initial : Option String) : SignedValue :=
  ⟨data⟩

/-- VersionField.to_python: values outside (None, empty, literal None) are
unsigned and parsed as int, with BadSignature and ValueError both
surfaced as SuspiciousOperation; the three sentinel inputs yield 0. -/
def VersionField.to_python (sigFn : String → String) (value : Option String) : Except Tamper Int :=
  match value with
  | none => .ok 0
  | some s =>
    if s = "" ∨ s = "None" then .ok 0
    else
      match unsign sigFn s with
      | none => .error .tampered
      | some payload =>
        match pyInt payload with
        | none => .error .tampered
        | some n => .ok n

/-- The value argument of VersionWidget.render: None or a SignedValue. -/
inductive WidgetValue where
  | pyNone
  | ofSigned (sv : SignedValue)
deriving DecidableEq

/-- VersionWidget.render: the parent rendering followed by a visible div
holding the value (empty for None; a SignedValue is shown through its
repr). -/
def VersionWidget.render (superRender : String) (value : WidgetValue) : String :=
  superRender ++ "<div>" ++
    (match value with
     | .pyNone => ""
     | .ofSigned sv => sv.pyRepr) ++ "</div>"

/-- The exception outcome of concurrency.core._select_lock as observed by
ConcurrentForm.clean: success, RecordModifiedError, or any other
exception. -/
inductive LockExn where
  | recordModified
  | otherExn
deriving DecidableEq

def NON_FIELD_ERRORS : String := "__all__"

/-- The error dictionary of a form, as (key, message) pairs. -/
structure FormErrors where
  errors : List (String × String)
deriving DecidableEq

/-- BaseForm._update_errors with a one-message error class: records the
message under the given key. -/
def update_errors (st : FormErrors) (key : String) (msg : String) : FormErrors :=
  ⟨st.errors ++ [(key, msg)]⟩

/-- ConcurrentForm.clean: run _select_lock; a RecordModifiedError is
caught and recorded as a non-field error, any other exception propagates;
the parent clean result is returned. -/
def ConcurrentForm.clean {α : Type} (lockResult : Except LockExn Unit)
    (superClean : α) (st : FormErrors) : Except LockExn (FormErrors × α) :=
  match lockResult with
  | .ok _ => .ok (st, superClean)
  | .error .recordModified =>
      .ok (update_errors st NON_FIELD_ERRORS "Record Modified", superClean)
  | .error .otherExn => .error .otherExn

/-- A datetime-field validation failure (unparseable input). -/
inductive VErr where
  | invalidDate
deriving DecidableEq

/-- Model of django.forms.DateTimeField.to_python (framework
collaborator): empty values become None, otherwise the input is parsed
(`parse` abstracts the strptime formats) and an unparseable string raises
ValidationError. Datetimes are abstract instants. -/
def DateTimeField.to_python (parse : String → Option Int) (value : Option String) :
    Except VErr (Option Int) :=
  match value with
  | none => .ok none
  | some s =>
    if s = "" then .ok none
    else
      match parse s with
      | some d => .ok (some d)
      | none => .error .invalidDate

/-- DateVersionField.to_python: parent parse first; a result in
EMPTY_VALUES (i.e. None) becomes timezone.now() (the `now` parameter),
otherwise the parsed datetime is returned unchanged. -/
def DateVersionField.to_python (parse : String → Option Int) (now : Int)
    (value : Option String) : Except VErr Int :=
  match DateTimeField.to_python parse value with
  | .error e => .error e
  | .ok none => .ok now
  | .ok (some d) => .ok d

/-- The widget choices relevant to VersionField configuration. -/
inductive WidgetKind where
  | hiddenInput
  | versionWidget
  | otherWidget
deriving DecidableEq

/-- The keyword arguments a caller may pass to VersionField.__init__
(`none` means the key is absent). -/
structure VersionFieldKwargs where
  signer : Option (String → String)
  min_value : Option Int
  max_value : Option Int
  required : Option Bool
  initial : Option (Option Int)
  widget : Option WidgetKind

/-- The resulting configured field. -/
structure VersionFieldConfig where
  signerFn : String → String
  required : Bool
  initial : Option Int
  min_value : Option Int
  max_value : Option Int
  widget : WidgetKind

/-- Model of forms.IntegerField.__init__ (framework collaborator): stores
min_value/max_value as given (absent means unrestricted), required
defaults to True, initial defaults to None, widget defaults to the class
attribute (HiddenInput on VersionField). -/
def IntegerField.init (signerFn : String → String) (kw : VersionFieldKwargs) :
    VersionFieldConfig :=
  { signerFn := signerFn
  , required := kw.required.getD true
  , initial := kw.initial.getD none
  , min_value := kw.min_value
  , max_value := kw.max_value
  , widget := kw.widget.getD .hiddenInput }

/-- VersionField.__init__: pops the signer (defaulting to
VersionFieldSigner), pops and discards min_value and max_value, forces
required=True and initial=None, defaults the widget to HiddenInput, then
delegates to IntegerField.__init__. -/
def VersionField.init (defaultSigner : String → String) (kw : VersionFieldKwargs) :
    VersionFieldConfig :=
  let signerFn := kw.signer.getD defaultSigner
  let kw1 : VersionFieldKwargs :=
    { kw with signer := none, min_value := none, max_value := none }
  let kw2 : VersionFieldKwargs := { kw1 with required := some true, initial := some none }
  let kw3 : VersionFieldKwargs := { kw2 with widget := some (kw2.widget.getD .hiddenInput) }
  IntegerField.init signerFn kw3

/-! ### Signer lemmas -/

theorem rsplitLast_of_not_mem (sep : Char) (l : List Char) (h : sep ∉ l) :
    rsplitLast sep l = none := by
  induction l with
  | nil => rfl
  | cons c cs ih =>
    have hc : c ≠ sep := fun e => h (e ▸ List.mem_cons_self c cs)
    have hcs : sep ∉ cs := fun e => h (List.mem_cons_of_mem c e)
    simp [rsplitLast, ih hcs, hc]

theorem rsplitLast_append (sep : Char) (a b : List Char) (h : sep ∉ b) :
    rsplitLast sep (a ++ sep :: b) = some (a, b) := by
  induction a with
  | nil => simp [rsplitLast, rsplitLast_of_not_mem sep b h]
  | cons c a ih => simp [rsplitLast, ih]

theorem sign_data (sigFn : String → String) (v : String) :
    (sign sigFn v).data = v.data ++ ':' :: (sigFn v).data := by
  have hcolon : (":" : String).data = [':'] := rfl
  simp [sign, hcolon]

theorem colon_mem_sign (sigFn : String → String) (v : String) :
    ':' ∈ (sign sigFn v).data := by
  rw [sign_data]
  simp

theorem sign_ne_empty (sigFn : String → String) (v : String) :
    sign sigFn v ≠ "" := by
  intro e
  have h := colon_mem_sign sigFn v
  rw [e] at h
  exact absurd h (by decide)

theorem sign_ne_noneLiteral (sigFn : String → String) (v : String) :
    sign sigFn v ≠ "None" := by
  intro e
  have h := colon_mem_sign sigFn v
  rw [e] at h
  exact absurd h (by decide)

theorem unsign_sign (sigFn : String → String) (v : String)
    (h : ':' ∉ (sigFn v).data) :
    unsign sigFn (sign sigFn v) = some v := by
  have hsplit : rsplitLast ':' (sign sigFn v).data = some (v.data, (sigFn v).data) := by
    rw [sign_data]
    exact rsplitLast_append ':' v.data (sigFn v).data h
  simp only [unsign, hsplit]
  simp

/-! ### Decimal print/parse round trip -/

theorem digitChar_isDigit (d : Nat) (h : d < 10) : (digitChar d).isDigit = true := by
  interval_cases d <;> decide

theorem digitVal_digitChar (d : Nat) (h : d < 10) : digitVal (digitChar d) = d := by
  interval_cases d <;> decide

theorem natDigitsRev_ne_nil (n : Nat) : natDigitsRev n ≠ [] := by
  rw [natDigitsRev]
  split <;> simp

theorem natDigitsRev_digits (n : Nat) : ∀ c ∈ natDigitsRev n, c.isDigit = true := by
  induction n using Nat.strong_induction_on with
  | _ n ih =>
    rw [natDigitsRev]
    split
    · intro c hc
      simp only [List.mem_singleton] at hc
      subst hc
      exact digitChar_isDigit n (by omega)
    · intro c hc
      rcases List.mem_cons.mp hc with hc | hc
      · subst hc
        exact digitChar_isDigit (n % 10) (Nat.mod_lt _ (by omega))
      · exact ih (n / 10) (Nat.div_lt_self (by omega) (by omega)) c hc

theorem natDigitsRev_foldr (n : Nat) :
    (natDigitsRev n).foldr (fun c a => a * 10 + digitVal c) 0 = n := by
  induction n using Nat.strong_induction_on with
  | _ n ih =>
    rw [natDigitsRev]
    split
    · simp [digitVal_digitChar n (by omega)]
    · simp only [List.foldr_cons]
      rw [ih (n / 10) (Nat.div_lt_self (by omega) (by omega))]
      rw [digitVal_digitChar (n % 10) (Nat.mod_lt _ (by omega))]
      omega

theorem digitsToNat_natDigitsRev (n : Nat) :
    digitsToNat (natDigitsRev n).reverse = some n := by
  unfold digitsToNat
  rw [if_pos]
  · rw [List.foldl_reverse]
    exact congrArg some (natDigitsRev_foldr n)
  · constructor
    · simp [natDigitsRev_ne_nil n]
    · rw [List.all_eq_true]
      intro c hc
      exact natDigitsRev_digits n c (List.mem_reverse.mp hc)

theorem dropWhile_eq_self_of_head {p : Char → Bool} {l : List Char}
    (h : ∀ c ∈ l, p c = false) : l.dropWhile p = l := by
  cases l with
  | nil => rfl
  | cons c cs => simp [List.dropWhile_cons, h c (List.mem_cons_self c cs)]

theorem pyStrip_eq_self {l : List Char} (h : ∀ c ∈ l, isPySpace c = false) :
    pyStrip l = l := by
  unfold pyStrip
  rw [dropWhile_eq_self_of_head h]
  rw [dropWhile_eq_self_of_head (fun c hc => h c (List.mem_reverse.mp hc))]
  exact List.reverse_reverse l

theorem isDigit_not_space (c : Char) (h : c.isDigit = true) : isPySpace c = false := by
  simp only [isPySpace, Bool.or_eq_false_iff]
  refine ⟨⟨⟨?_, ?_⟩, ?_⟩, ?_⟩ <;>
    · simp only [decide_eq_false_iff_not]
      rintro rfl
      revert h
      decide

theorem isDigit_ne_minus (c : Char) (h : c.isDigit = true) : c ≠ '-' := by
  rintro rfl
  revert h
  decide

theorem isDigit_ne_plus (c : Char) (h : c.isDigit = true) : c ≠ '+' := by
  rintro rfl
  revert h
  decide

theorem pyIntCore_digits (n : Nat) :
    pyIntCore (natDigitsRev n).reverse = some (n : Int) := by
  obtain ⟨c, rest, hcr⟩ :=
    List.exists_cons_of_ne_nil
      (fun e => natDigitsRev_ne_nil n (List.reverse_eq_nil_iff.mp e))
  have hcd : c.isDigit = true := by
    apply natDigitsRev_digits n
    rw [← List.mem_reverse, hcr]
    exact List.mem_cons_self c rest
  rw [hcr, pyIntCore, if_neg (isDigit_ne_minus c hcd), if_neg (isDigit_ne_plus c hcd),
    ← hcr, digitsToNat_natDigitsRev]
  rfl

theorem pyInt_natStr (n : Nat) : pyInt (natStr n) = some (n : Int) := by
  unfold pyInt natStr
  rw [pyStrip_eq_self]
  · exact pyIntCore_digits n
  · intro c hc
    exact isDigit_not_space c (natDigitsRev_digits n c (List.mem_reverse.mp hc))

theorem pyInt_intStr (v : Int) : pyInt (intStr v) = some v := by
  unfold intStr
  split
  · next hv =>
    unfold pyInt
    have hdata : ("-" ++ natStr v.natAbs).data = '-' :: (natDigitsRev v.natAbs).reverse := by
      have hm : ("-" : String).data = ['-'] := rfl
      simp [natStr, hm]
    rw [hdata, pyStrip_eq_self, pyIntCore, if_pos rfl, digitsToNat_natDigitsRev]
    · have hval : -((v.natAbs : Int)) = v := by omega
      simpa using hval
    · intro c hc
      rcases List.mem_cons.mp hc with hc | hc
      · subst hc
        decide
      · exact isDigit_not_space c (natDigitsRev_digits _ c (List.mem_reverse.mp hc))
  · next hv =>
    rw [pyInt_natStr]
    congr 1
    omega

/-! ### Claim theorems -/

/-- Claim C1: for every integer raw marker v, decoding the token produced
by VersionField.prepare_value recovers v exactly: to_python applied to the
signed string of prepare_value(v) returns v. The hypothesis states the
Django invariant that the MAC output never contains the separator. -/
theorem VersionField.roundtrip (sigFn : String → String) (v : Int)
    (h : ':' ∉ (sigFn (intStr v)).data) :
    VersionField.to_python sigFn (VersionField.prepare_value sigFn (.rawInt v)).value
      = .ok v := by
  have hne : ¬(sign sigFn (intStr v) = "" ∨ sign sigFn (intStr v) = "None") :=
    fun hor => hor.elim (sign_ne_empty sigFn (intStr v)) (sign_ne_noneLiteral sigFn (intStr v))
  simp only [VersionField.prepare_value, VersionField.to_python, if_neg hne,
    unsign_sign sigFn (intStr v) h, pyInt_intStr]

/-- Claim C1 witness at v = 7 with a constant MAC. -/
theorem VersionField.roundtrip_witness :
    ':' ∉ (((fun _ : String => "MAC") (intStr 7)).data) ∧
    VersionField.to_python (fun _ : String => "MAC")
      (VersionField.prepare_value (fun _ : String => "MAC") (.rawInt 7)).value = .ok 7 :=
  ⟨by decide, VersionField.roundtrip (fun _ : String => "MAC") 7 (by decide)⟩

/-- Claim C2 counterexample: to_python on the empty string and on the
literal string None does NOT fail with the tamper error; it returns the
sentinel 0. -/
theorem VersionField.to_python_sentinel_counterexample :
    VersionField.to_python (fun _ : String => "MAC") (some "") = .ok 0 ∧
    VersionField.to_python (fun _ : String => "MAC") (some "None") = .ok 0 ∧
    VersionField.to_python (fun _ : String => "MAC") (some "")
      ≠ Except.error Tamper.tampered ∧
    VersionField.to_python (fun _ : String => "MAC") (some "None")
      ≠ Except.error Tamper.tampered :=
  ⟨rfl, rfl, fun h => Except.noConfusion h, fun h => Except.noConfusion h⟩

/-- Claim C2 (amended): for every submitted string that is empty or the
literal string None, to_python does not raise; it returns the sentinel 0
(these inputs are treated as the new-record sentinel, not as tampered). -/
theorem VersionField.to_python_sentinel_strings (sigFn : String → String) (s : String)
    (h : s = "" ∨ s = "None") :
    VersionField.to_python sigFn (some s) = .ok 0 := by
  simp only [VersionField.to_python, if_pos h]

/-- Claim C2 amended witness at the empty string. -/
theorem VersionField.to_python_sentinel_strings_witness :
    VersionField.to_python (fun _ : String => "MAC") (some "") = .ok 0 :=
  VersionField.to_python_sentinel_strings (fun _ : String => "MAC") "" (Or.inl rfl)

/-- Claim C3 counterexample: prepare_value(None) signs the literal string
None (not the sentinel 0), its display repr is the full signed token (not
empty), and to_python on its signed string raises the tamper error instead
of returning the sentinel. -/
theorem VersionField.prepare_value_pyNone_counterexample :
    (VersionField.prepare_value (fun _ : String => "MAC") .pyNone).value
      = some "None:MAC" ∧
    (VersionField.prepare_value (fun _ : String => "MAC") .pyNone).value
      ≠ some (sign (fun _ : String => "MAC") "0") ∧
    (VersionField.prepare_value (fun _ : String => "MAC") .pyNone).pyRepr = "None:MAC" ∧
    VersionField.to_python (fun _ : String => "MAC")
      (VersionField.prepare_value (fun _ : String => "MAC") .pyNone).value
      = Except.error Tamper.tampered := by
  refine ⟨rfl, ?_, rfl, rfl⟩
  intro h
  exact absurd (Option.some.inj h) (by decide)

/-- Claim C3 (amended): prepare_value(None) wraps the signature of the
string None; the wrapped token is displayed in full (non-empty repr), and
decoding it fails with the tamper error because the unsigned payload is
not an integer. -/
theorem VersionField.prepare_value_pyNone (sigFn : String → String)
    (h : ':' ∉ (sigFn "None").data) :
    VersionField.prepare_value sigFn .pyNone = ⟨some (sign sigFn "None")⟩ ∧
    (VersionField.prepare_value sigFn .pyNone).pyRepr = sign sigFn "None" ∧
    VersionField.to_python sigFn (VersionField.prepare_value sigFn .pyNone).value
      = Except.error Tamper.tampered := by
  refine ⟨rfl, ?_, ?_⟩
  · simp only [VersionField.prepare_value, SignedValue.pyRepr, pyTruthy, pyStrOpt]
    rw [if_pos]
    simp only [Bool.not_eq_true', beq_eq_false_iff_ne]
    exact sign_ne_empty sigFn "None"
  · have hne : ¬(sign sigFn "None" = "" ∨ sign sigFn "None" = "None") :=
      fun hor => hor.elim (sign_ne_empty sigFn "None") (sign_ne_noneLiteral sigFn "None")
    have hNone : pyInt "None" = none := by decide
    simp only [VersionField.prepare_value, VersionField.to_python, if_neg hne,
      unsign_sign sigFn "None" h, hNone]

/-- Claim C3 amended witness with a constant MAC. -/
theorem VersionField.prepare_value_pyNone_witness :
    VersionField.to_python (fun _ : String => "MAC")
      (VersionField.prepare_value (fun _ : String => "MAC") .pyNone).value
      = Except.error Tamper.tampered :=
  (VersionField.prepare_value_pyNone (fun _ : String => "MAC") (by decide)).2.2

/-- Claim C4: for every submitted string outside the sentinel set, the
security-level tamper error is raised if and only if signature
verification fails (BadSignature, unsign = none) or the unsigned payload
does not parse as an integer (ValueError, pyInt = none). The embedded
to_python takes no store state, so no store operation can precede the
failure. -/
theorem VersionField.to_python_tampered_iff (sigFn : String → String) (s : String)
    (h1 : s ≠ "") (h2 : s ≠ "None") :
    VersionField.to_python sigFn (some s) = Except.error Tamper.tampered ↔
      unsign sigFn s = none ∨ ∃ p, unsign sigFn s = some p ∧ pyInt p = none := by
  have hne : ¬(s = "" ∨ s = "None") := fun hor => hor.elim h1 h2
  simp only [VersionField.to_python, if_neg hne]
  rcases hu : unsign sigFn s with _ | p
  · simp
  · rcases hp : pyInt p with _ | n
    · simp [hp]
    · simp [hp]

/-- Claim C4 witness: a string with no signature separator is rejected as
tampered. -/
theorem VersionField.to_python_tampered_iff_witness :
    VersionField.to_python (fun _ : String => "MAC") (some "garbage")
      = Except.error Tamper.tampered :=
  (VersionField.to_python_tampered_iff (fun _ : String => "MAC") "garbage"
    (by decide) (by decide)).mpr (Or.inl (by decide))

/-- Claim C5: for every submitted value among None, the empty string and
the literal string None, to_python returns the zero sentinel marker 0. -/
theorem VersionField.to_python_empty_values (sigFn : String → String)
    (value : Option String)
    (h : value = none ∨ value = some "" ∨ value = some "None") :
    VersionField.to_python sigFn value = .ok 0 := by
  rcases h with rfl | rfl | rfl <;> rfl

/-- Claim C5 witness at None. -/
theorem VersionField.to_python_empty_values_witness :
    VersionField.to_python (fun _ : String => "MAC") none = .ok 0 :=
  VersionField.to_python_empty_values (fun _ : String => "MAC") none (Or.inl rfl)

/-- Claim C6: when _select_lock raises RecordModifiedError inside
ConcurrentForm.clean, the exception does not propagate (the result is ok,
not error); the non-field error Record Modified is recorded under
NON_FIELD_ERRORS, and the parent clean result is still returned. -/
theorem ConcurrentForm.clean_recordModified {α : Type} (superClean : α)
    (st : FormErrors) :
    ConcurrentForm.clean (.error .recordModified) superClean st =
      .ok (update_errors st NON_FIELD_ERRORS "Record Modified", superClean) ∧
    (NON_FIELD_ERRORS, "Record Modified") ∈
      (update_errors st NON_FIELD_ERRORS "Record Modified").errors :=
  ⟨rfl, by simp [update_errors]⟩

/-- Claim C7: DateVersionField.to_python resolves absent or empty input to
the current wall-clock time (the now parameter standing for
timezone.now()), and returns every non-empty parseable datetime
unchanged. -/
theorem DateVersionField.to_python_now (parse : String → Option Int) (now : Int) :
    (DateVersionField.to_python parse now none = .ok now ∧
     DateVersionField.to_python parse now (some "") = .ok now) ∧
    ∀ s d, s ≠ "" → parse s = some d →
      DateVersionField.to_python parse now (some s) = .ok d := by
  refine ⟨⟨rfl, rfl⟩, ?_⟩
  intro s d hs hp
  simp only [DateVersionField.to_python, DateTimeField.to_python, if_neg hs, hp]

/-- Claim C7 witness with a constant parser. -/
theorem DateVersionField.to_python_now_witness :
    DateVersionField.to_python (fun _ => some 5) 3 none = .ok 3 ∧
    DateVersionField.to_python (fun _ => some 5) 3 (some "t") = .ok 5 :=
  ⟨(DateVersionField.to_python_now (fun _ => some 5) 3).1.1,
   (DateVersionField.to_python_now (fun _ => some 5) 3).2 "t" 5 (by decide) rfl⟩

/-- Claim C8: the display token repr is the empty string whenever the
underlying value is absent or falsy, and str of the value otherwise; the
VersionWidget visible div shows exactly that repr. -/
theorem SignedValue.display_spec (superRender : String) (sv : SignedValue) :
    (pyTruthy sv.value = false →
      sv.pyRepr = "" ∧
      VersionWidget.render superRender (.ofSigned sv)
        = superRender ++ "<div>" ++ "" ++ "</div>") ∧
    (pyTruthy sv.value = true →
      sv.pyRepr = pyStrOpt sv.value ∧
      VersionWidget.render superRender (.ofSigned sv)
        = superRender ++ "<div>" ++ pyStrOpt sv.value ++ "</div>") := by
  constructor
  · intro h
    have hr : sv.pyRepr = "" := by simp [SignedValue.pyRepr, h]
    exact ⟨hr, by simp only [VersionWidget.render, hr]⟩
  · intro h
    have hr : sv.pyRepr = pyStrOpt sv.value := by simp [SignedValue.pyRepr, h]
    exact ⟨hr, by simp only [VersionWidget.render, hr]⟩

/-- Claim C8 witness at a falsy and a truthy wrapped value. -/
theorem SignedValue.display_spec_witness :
    SignedValue.pyRepr ⟨none⟩ = "" ∧ SignedValue.pyRepr ⟨some "7:MAC"⟩ = "7:MAC" :=
  ⟨((SignedValue.display_spec "" ⟨none⟩).1 (by decide)).1,
   ((SignedValue.display_spec "" ⟨some "7:MAC"⟩).2 (by decide)).1⟩

/-- Claim C9: prepare_value is idempotent on already-signed values: a
SignedValue passes through unchanged (no double signing), while raw
integers and None are stringified, signed and wrapped. -/
theorem VersionField.prepare_value_idempotent (sigFn : String → String) :
    (∀ sv : SignedValue, VersionField.prepare_value sigFn (.signed sv) = sv) ∧
    (∀ x : FieldValue,
      VersionField.prepare_value sigFn (.signed (VersionField.prepare_value sigFn x))
        = VersionField.prepare_value sigFn x) ∧
    (∀ v : Int, VersionField.prepare_value sigFn (.rawInt v)
        = ⟨some (sign sigFn (intStr v))⟩) ∧
    VersionField.prepare_value sigFn .pyNone = ⟨some (sign sigFn "None")⟩ :=
  ⟨fun _ => rfl, fun _ => rfl, fun _ => rfl, rfl⟩

/-- Claim C10: whatever keyword arguments the caller supplies,
VersionField.__init__ produces a configuration with required=True,
initial=None and no min_value/max_value restriction. -/
theorem VersionField.init_normalizes (defaultSigner : String → String)
    (kw : VersionFieldKwargs) :
    (VersionField.init defaultSigner kw).required = true ∧
    (VersionField.init defaultSigner kw).initial = none ∧
    (VersionField.init defaultSigner kw).min_value = none ∧
    (VersionField.init defaultSigner kw).max_value = none :=
  ⟨rfl, rfl, rfl, rfl⟩
